import Mathlib

/-!
Shallow embedding of `src/py/aws/delete_vpc.py` (the AWS VPC teardown
sequencer) and proofs about the claims of its specification.

The embedding models:
  * the phase sequencer `VPCDeleter.run_deletion` and the CLI entry `main`;
  * the per-phase functions `delete_security_groups`,
    `delete_internet_gateways`, `delete_subnets`, `delete_route_tables`,
    `delete_network_interfaces`;
  * the bounded retry loops of `_cleanup_subnet_dependencies` and
    `cleanup_gwlb_network_interfaces`.

External provider behaviour (boto3 call results) is supplied as explicit
environment functions; every phase function returns the list of API calls
it issued (its trace) together with its local bookkeeping.
-/

/-- Embedding of a botocore `ClientError`: an error code and a message. -/
structure ClientErr where
  code : String
  msg : String
deriving DecidableEq, Repr

/-- Result of one provider call: success or a `ClientError`. -/
inductive Outcome where
  | ok
  | err (e : ClientErr)
deriving DecidableEq, Repr

/-- Boolean substring test, used to embed Python `needle in haystack`. -/
def containsStr (s t : String) : Bool := 2 ≤ (s.splitOn t).length

/- ------------------------------------------------------------------
   The sequencer skeleton: `VPCDeleter.run_deletion` and `main`
   (delete_vpc.py lines 2373-2495).
   ------------------------------------------------------------------ -/

/-- The fixed `steps` list of `run_deletion` (delete_vpc.py lines 2396-2415),
phase names in source order. -/
def stepNames : List String :=
  ["EC2 Instances",
   "VPC Endpoints",
   "VPC Endpoint Service Configurations",
   "Load Balancers",
   "GWLB Network Interface Cleanup",
   "Lambda Functions",
   "RDS Subnet Groups",
   "NAT Gateways",
   "Peering Connections",
   "VPN Connections & Gateways",
   "Elastic IPs",
   "Internet Gateways",
   "Network Interfaces",
   "Subnets",
   "Subnet Retry (after GWLB cleanup)",
   "Route Tables",
   "Security Groups",
   "Network ACLs"]

/-- Observable events of one `run_deletion` invocation. -/
inductive RunEvent where
  | dryRunNotice
  | verifyVpc
  | phaseStart (name : String)
  | phaseAction (name : String) (k : Nat)
  | phaseError (name : String)
  | vpcDeleteAttempt
deriving DecidableEq, Repr

/-- Environment of one run: whether the VPC exists, how many resources each
phase finds (its inventory), whether the phase body raises an exception, and
whether the final `delete_vpc` call succeeds. -/
structure RunEnv where
  vpcExists : Bool
  inventory : String → Nat
  phaseRaises : String → Bool
  vpcDeleteSucceeds : Bool

/-- One iteration of the step loop of `run_deletion` (lines 2419-2425): the
step is announced, performs its per-resource actions, and any exception it
raises is caught by the `except Exception` handler and logged. -/
def runStep (env : RunEnv) (name : String) : List RunEvent :=
  RunEvent.phaseStart name ::
    ((List.range (env.inventory name)).map (RunEvent.phaseAction name) ++
      (if env.phaseRaises name then [RunEvent.phaseError name] else []))

/-- Embedding of `VPCDeleter.run_deletion` (lines 2373-2444): the dry-run
early return, the existence check, the fixed step loop, and the final
`delete_vpc` attempt.  Returns the boolean result and the event trace. -/
def run_deletion (env : RunEnv) (dryRun : Bool) : Bool × List RunEvent :=
  if dryRun then (true, [RunEvent.dryRunNotice])
  else if env.vpcExists = false then (false, [RunEvent.verifyVpc])
  else
    (env.vpcDeleteSucceeds,
      RunEvent.verifyVpc ::
        ((stepNames.map (runStep env)).flatten ++ [RunEvent.vpcDeleteAttempt]))

/-- How the process ends: a plain `return` from the click command (click then
exits with code 0) or an explicit `sys.exit`. -/
inductive MainResult where
  | normalReturn
  | exited (code : Nat)
deriving DecidableEq, Repr

/-- Exit code of the process for a given `MainResult`; a plain return from a
click command terminates the process with code 0. -/
def processExitCode : MainResult → Nat
  | MainResult.normalReturn => 0
  | MainResult.exited n => n

/-- Embedding of `main` (lines 2451-2491): the confirmation prompt guard, the
fatal configuration check performed by the `VPCDeleter` constructor, and the
translation of `run_deletion`'s boolean into `sys.exit(0)` / `sys.exit(1)`. -/
def mainCmd (env : RunEnv) (configOk : Bool)
    (dryRun force confirmAnswer : Bool) : MainResult × List RunEvent :=
  if !dryRun && !force && !confirmAnswer then
    (MainResult.normalReturn, [])
  else if !configOk then
    (MainResult.exited 1, [])
  else
    let r := run_deletion env dryRun
    (if r.1 then MainResult.exited 0 else MainResult.exited 1, r.2)

/-- Names of the phases started in a trace, in order. -/
def phaseStarts : List RunEvent → List String
  | [] => []
  | RunEvent.phaseStart n :: rest => n :: phaseStarts rest
  | _ :: rest => phaseStarts rest

theorem phaseStarts_append (xs ys : List RunEvent) :
    phaseStarts (xs ++ ys) = phaseStarts xs ++ phaseStarts ys := by
  induction xs with
  | nil => rfl
  | cons x rest ih =>
    cases x <;> simp [phaseStarts, ih]

theorem phaseStarts_actions (n : String) (l : List Nat) :
    phaseStarts (l.map (RunEvent.phaseAction n)) = [] := by
  induction l with
  | nil => rfl
  | cons k rest ih => simp [phaseStarts, ih]

theorem phaseStarts_runStep (env : RunEnv) (n : String) :
    phaseStarts (runStep env n) = [n] := by
  unfold runStep
  by_cases h : env.phaseRaises n = true
  · simp [phaseStarts, phaseStarts_append, phaseStarts_actions, h]
  · simp [phaseStarts, phaseStarts_append, phaseStarts_actions, h]

theorem phaseStarts_flatten (env : RunEnv) (l : List String) :
    phaseStarts ((l.map (runStep env)).flatten) = l := by
  induction l with
  | nil => rfl
  | cons n rest ih =>
    simp only [List.map_cons, List.flatten_cons, phaseStarts_append,
      phaseStarts_runStep, ih]
    rfl

theorem phaseStart_mem_flatten (env : RunEnv) (l : List String) (n : String)
    (h : n ∈ l) :
    RunEvent.phaseStart n ∈ (l.map (runStep env)).flatten := by
  induction l with
  | nil => cases h
  | cons m rest ih =>
    simp only [List.map_cons, List.flatten_cons]
    rcases List.mem_cons.mp h with h1 | h2
    · subst h1
      exact List.mem_append_left _ (by simp [runStep])
    · exact List.mem_append_right _ (ih h2)

theorem phaseError_mem_flatten (env : RunEnv) (l : List String) (n : String)
    (h : n ∈ l) (hr : env.phaseRaises n = true) :
    RunEvent.phaseError n ∈ (l.map (runStep env)).flatten := by
  induction l with
  | nil => cases h
  | cons m rest ih =>
    simp only [List.map_cons, List.flatten_cons]
    rcases List.mem_cons.mp h with h1 | h2
    · subst h1
      exact List.mem_append_left _ (by simp [runStep, hr])
    · exact List.mem_append_right _ (ih h2)

/-- Run environment with a populated inventory (five resources per phase),
an existing VPC, and no phase exceptions. -/
def populatedEnv : RunEnv :=
  { vpcExists := true
    inventory := fun _ => 5
    phaseRaises := fun _ => false
    vpcDeleteSucceeds := true }

/-- Run environment in which every phase raises an exception. -/
def envAllRaise : RunEnv :=
  { vpcExists := true
    inventory := fun _ => 3
    phaseRaises := fun _ => true
    vpcDeleteSucceeds := false }

/-- C1: evaluating `run_deletion` with `dry_run=True` on a populated scope.
The code returns `True` after printing only the dry-run banner: it issues no
mutating call, but it also performs no discovery (no `describe_vpcs`, no
phase is entered) and prints no intended actions, contradicting the claim
that dry-run performs discovery and prints the intended actions. -/
theorem dry_run_performs_no_discovery :
    run_deletion populatedEnv true = (true, [RunEvent.dryRunNotice])
    ∧ RunEvent.verifyVpc ∉ (run_deletion populatedEnv true).2
    ∧ phaseStarts (run_deletion populatedEnv true).2 = [] := by
  exact ⟨rfl, by decide, rfl⟩

/-- C2: for every environment in which the VPC exists, the phases of
`run_deletion` start in exactly the fixed source order `stepNames`,
independent of the inventory; in particular the load-balancer phase comes
before the subnet phase and the instance phase before the
network-interface phase. -/
theorem run_deletion_fixed_phase_order (env : RunEnv)
    (h : env.vpcExists = true) :
    phaseStarts (run_deletion env false).2 = stepNames
    ∧ stepNames.indexOf "Load Balancers" < stepNames.indexOf "Subnets"
    ∧ stepNames.indexOf "EC2 Instances"
        < stepNames.indexOf "Network Interfaces" := by
  refine ⟨?_, by decide, by decide⟩
  have h2 : phaseStarts ((stepNames.map (runStep env)).flatten
      ++ [RunEvent.vpcDeleteAttempt]) = stepNames := by
    rw [phaseStarts_append, phaseStarts_flatten]
    rfl
  simpa [run_deletion, h, phaseStarts] using h2

/-- Witness for C2 at a concrete populated environment. -/
theorem run_deletion_fixed_phase_order_witness :
    phaseStarts (run_deletion populatedEnv false).2 = stepNames
    ∧ stepNames.indexOf "Load Balancers" < stepNames.indexOf "Subnets"
    ∧ stepNames.indexOf "EC2 Instances"
        < stepNames.indexOf "Network Interfaces" :=
  run_deletion_fixed_phase_order populatedEnv rfl

/-- C3: when the VPC exists, every phase is started, the final VPC deletion
is attempted, every exception a phase raises is caught and logged at the
step loop (a `phaseError` event), and the overall result is decided only by
the final `delete_vpc` call - no phase exception escapes or aborts the
run. -/
theorem run_deletion_no_exception_escapes (env : RunEnv)
    (h : env.vpcExists = true) :
    (∀ name ∈ stepNames,
        RunEvent.phaseStart name ∈ (run_deletion env false).2)
    ∧ RunEvent.vpcDeleteAttempt ∈ (run_deletion env false).2
    ∧ (∀ name ∈ stepNames, env.phaseRaises name = true →
        RunEvent.phaseError name ∈ (run_deletion env false).2)
    ∧ (run_deletion env false).1 = env.vpcDeleteSucceeds := by
  have htr : (run_deletion env false).2
      = RunEvent.verifyVpc ::
          ((stepNames.map (runStep env)).flatten
            ++ [RunEvent.vpcDeleteAttempt]) := by
    simp [run_deletion, h]
  refine ⟨?_, ?_, ?_, ?_⟩
  · intro name hn
    rw [htr]
    exact List.mem_cons_of_mem _
      (List.mem_append_left _ (phaseStart_mem_flatten env _ name hn))
  · rw [htr]
    exact List.mem_cons_of_mem _ (List.mem_append_right _ (by simp))
  · intro name hn hr
    rw [htr]
    exact List.mem_cons_of_mem _
      (List.mem_append_left _ (phaseError_mem_flatten env _ name hn hr))
  · simp [run_deletion, h]

/-- Witness for C3: in an environment where every phase raises, the subnet
phase still starts, its exception is logged, and the final VPC deletion is
still attempted. -/
theorem run_deletion_no_exception_escapes_witness :
    RunEvent.phaseStart "Subnets" ∈ (run_deletion envAllRaise false).2
    ∧ RunEvent.vpcDeleteAttempt ∈ (run_deletion envAllRaise false).2
    ∧ RunEvent.phaseError "Subnets" ∈ (run_deletion envAllRaise false).2 :=
  ⟨(run_deletion_no_exception_escapes envAllRaise rfl).1 "Subnets"
      (by decide),
   (run_deletion_no_exception_escapes envAllRaise rfl).2.1,
   (run_deletion_no_exception_escapes envAllRaise rfl).2.2.1 "Subnets"
      (by decide) rfl⟩

/-- C8: with `--dry-run`, `run_deletion` returns `True` immediately - before
the VPC existence check and with no discovery event - for every environment,
including one whose VPC does not exist; `main` then exits with code 0. -/
theorem dry_run_immediate_success (env : RunEnv)
    (force confirmAnswer : Bool) :
    run_deletion env true = (true, [RunEvent.dryRunNotice])
    ∧ mainCmd env true true force confirmAnswer
        = (MainResult.exited 0, [RunEvent.dryRunNotice])
    ∧ processExitCode (mainCmd env true true force confirmAnswer).1 = 0 := by
  refine ⟨rfl, ?_, ?_⟩ <;>
    simp [mainCmd, run_deletion, processExitCode]

/-- C9: declining the confirmation prompt on a non-dry-run, non-force
invocation makes `main` return normally without `sys.exit` and without
running any deletion, and the process exit code is 0. -/
theorem declined_confirmation_returns_normally (env : RunEnv)
    (configOk : Bool) :
    mainCmd env configOk false false false = (MainResult.normalReturn, [])
    ∧ processExitCode
        (mainCmd env configOk false false false).1 = 0 := by
  exact ⟨rfl, rfl⟩

/- ------------------------------------------------------------------
   Security-group phase: `VPCDeleter.delete_security_groups`
   (delete_vpc.py lines 2246-2280).
   ------------------------------------------------------------------ -/

/-- A security group as returned by `describe_security_groups`: id, name,
ingress rules, egress rules (rules are opaque identifiers; only emptiness
drives control flow). -/
structure SecurityGroup where
  groupId : String
  groupName : String
  ipPermissions : List String
  ipPermissionsEgress : List String
deriving DecidableEq, Repr

/-- API calls the security-group phase can issue. -/
inductive SgCall where
  | revokeIngress (gid : String)
  | revokeEgress (gid : String)
  | deleteGroup (gid : String)
deriving DecidableEq, Repr

/-- Whether a call is one of the two revoke operations. -/
def isRevoke : SgCall → Bool
  | SgCall.revokeIngress _ => true
  | SgCall.revokeEgress _ => true
  | SgCall.deleteGroup _ => false

/-- Whether a call is a `delete_security_group` operation. -/
def isDelete : SgCall → Bool
  | SgCall.deleteGroup _ => true
  | _ => false

/-- The non-default security groups (line 2254). -/
def customSgs (sgs : List SecurityGroup) : List SecurityGroup :=
  sgs.filter (fun sg => sg.groupName != "default")

/-- Rule removal for one group (lines 2256-2268): revoke ingress rules when
present, then egress rules when present; the whole phase sits in a single
`try`, so the first `ClientError` aborts.  Returns the calls issued and
whether both revokes completed. -/
def revokeSg (res : SgCall → Outcome) (sg : SecurityGroup) :
    List SgCall × Bool :=
  if sg.ipPermissions.isEmpty then
    if sg.ipPermissionsEgress.isEmpty then ([], true)
    else
      match res (SgCall.revokeEgress sg.groupId) with
      | Outcome.ok => ([SgCall.revokeEgress sg.groupId], true)
      | Outcome.err _ => ([SgCall.revokeEgress sg.groupId], false)
  else
    match res (SgCall.revokeIngress sg.groupId) with
    | Outcome.err _ => ([SgCall.revokeIngress sg.groupId], false)
    | Outcome.ok =>
      if sg.ipPermissionsEgress.isEmpty then
        ([SgCall.revokeIngress sg.groupId], true)
      else
        match res (SgCall.revokeEgress sg.groupId) with
        | Outcome.ok =>
          ([SgCall.revokeIngress sg.groupId,
            SgCall.revokeEgress sg.groupId], true)
        | Outcome.err _ =>
          ([SgCall.revokeIngress sg.groupId,
            SgCall.revokeEgress sg.groupId], false)

/-- First pass over the custom groups (lines 2255-2268): revoke rules group
by group, aborting the pass (and the phase) at the first error. -/
def revokePassSg (res : SgCall → Outcome) :
    List SecurityGroup → List SgCall × Bool
  | [] => ([], true)
  | sg :: rest =>
    let r := revokeSg res sg
    if r.2 then
      let q := revokePassSg res rest
      (r.1 ++ q.1, q.2)
    else (r.1, false)

/-- Second pass (lines 2270-2274): delete the groups one by one; the first
`ClientError` aborts the pass.  Returns calls, deleted ids, and whether the
pass completed. -/
def deletePassSg (res : SgCall → Outcome) :
    List SecurityGroup → List SgCall × List String × Bool
  | [] => ([], [], true)
  | sg :: rest =>
    match res (SgCall.deleteGroup sg.groupId) with
    | Outcome.ok =>
      let r := deletePassSg res rest
      (SgCall.deleteGroup sg.groupId :: r.1, sg.groupId :: r.2.1, r.2.2)
    | Outcome.err _ => ([SgCall.deleteGroup sg.groupId], [], false)

/-- Embedding of `delete_security_groups` (lines 2246-2280): one `try` wraps
both passes, so an error in the revoke pass prevents every delete, and an
error in the delete pass stops the remaining deletes.  Returns the call
trace and the ids recorded as deleted. -/
def delete_security_groups (sgs : List SecurityGroup)
    (res : SgCall → Outcome) : List SgCall × List String :=
  let cs := customSgs sgs
  let r := revokePassSg res cs
  if r.2 then
    let d := deletePassSg res cs
    (r.1 ++ d.1, d.2.1)
  else (r.1, [])

/- ------------------------------------------------------------------
   Internet-gateway phase: `VPCDeleter.delete_internet_gateways`
   (delete_vpc.py lines 1050-1072).
   ------------------------------------------------------------------ -/

/-- API calls of the internet-gateway phase. -/
inductive IgwCall where
  | detach (igwId : String)
  | delete (igwId : String)
deriving DecidableEq, Repr

/-- Embedding of `delete_internet_gateways`: a single `try` wraps the loop
that detaches then deletes each gateway, so the first `ClientError` ends the
phase.  Returns the call trace and the ids recorded as deleted. -/
def delete_internet_gateways (igws : List String)
    (res : IgwCall → Outcome) : List IgwCall × List String :=
  match igws with
  | [] => ([], [])
  | g :: rest =>
    match res (IgwCall.detach g) with
    | Outcome.err _ => ([IgwCall.detach g], [])
    | Outcome.ok =>
      match res (IgwCall.delete g) with
      | Outcome.err _ => ([IgwCall.detach g, IgwCall.delete g], [])
      | Outcome.ok =>
        let r := delete_internet_gateways rest res
        (IgwCall.detach g :: IgwCall.delete g :: r.1, g :: r.2)

/- ------------------------------------------------------------------
   Subnet phase: `VPCDeleter.delete_subnets`
   (delete_vpc.py lines 1074-1136).
   ------------------------------------------------------------------ -/

/-- Events of the subnet phase: the initial delete attempt, the dependency
cleanup, and the retry after cleanup. -/
inductive SubnetEvent where
  | deleteAttempt (sid : String)
  | cleanupInvoked (sid : String)
  | retryAttempt (sid : String)
deriving DecidableEq, Repr

/-- Environment of the subnet phase: outcome of the first `delete_subnet`
call, result of `_cleanup_subnet_dependencies`, and outcome of the retry. -/
structure SubnetEnv where
  del1 : String → Outcome
  cleanup : String → Bool
  del2 : String → Outcome

/-- Handling of one subnet (lines 1084-1128): delete; on
`DependencyViolation` run the cleanup and, when it reports success, retry
once; any other error code - including not-found - goes to the generic
branch that records the subnet as failed.  Returns the events and whether
the subnet was recorded as deleted. -/
def processSubnet (env : SubnetEnv) (s : String) :
    List SubnetEvent × Bool :=
  match env.del1 s with
  | Outcome.ok => ([SubnetEvent.deleteAttempt s], true)
  | Outcome.err e =>
    if e.code = "DependencyViolation" then
      if env.cleanup s then
        match env.del2 s with
        | Outcome.ok =>
          ([SubnetEvent.deleteAttempt s, SubnetEvent.cleanupInvoked s,
            SubnetEvent.retryAttempt s], true)
        | Outcome.err _ =>
          ([SubnetEvent.deleteAttempt s, SubnetEvent.cleanupInvoked s,
            SubnetEvent.retryAttempt s], false)
      else
        ([SubnetEvent.deleteAttempt s, SubnetEvent.cleanupInvoked s], false)
    else ([SubnetEvent.deleteAttempt s], false)

/-- Embedding of `delete_subnets`: every subnet is processed inside its own
`try`, so a failure never stops the loop.  Returns the event trace, the
deleted ids, and the failed ids. -/
def delete_subnets (subnets : List String) (env : SubnetEnv) :
    List SubnetEvent × List String × List String :=
  match subnets with
  | [] => ([], [], [])
  | s :: rest =>
    let p := processSubnet env s
    let r := delete_subnets rest env
    (p.1 ++ r.1,
     (if p.2 then [s] else []) ++ r.2.1,
     (if p.2 then [] else [s]) ++ r.2.2)

/- ------------------------------------------------------------------
   Route-table phase: `VPCDeleter.delete_route_tables`
   (delete_vpc.py lines 2087-2172).
   ------------------------------------------------------------------ -/

/-- One association entry of a route table. -/
structure RtAssoc where
  main : Bool
  subnetId : Option String
  assocId : Option String
deriving DecidableEq, Repr

/-- One route entry of a route table. -/
structure RtRoute where
  origin : String
  state : String
  destCidr : Option String
  destIpv6Cidr : Option String
deriving DecidableEq, Repr

/-- A route table as returned by `describe_route_tables`. -/
structure RouteTable where
  routeTableId : String
  associations : List RtAssoc
  routes : List RtRoute
deriving DecidableEq, Repr

/-- API calls of the route-table phase. -/
inductive RtCall where
  | disassociate (assocId : String)
  | deleteRoute (rtId : String) (dest : String)
  | deleteTable (rtId : String)
deriving DecidableEq, Repr

/-- Whether a route table carries a `Main` association (line 2099). -/
def isMainRt (rt : RouteTable) : Bool :=
  rt.associations.any (fun a => a.main)

/-- The route tables the phase processes: those without a `Main`
association (lines 2098-2099). -/
def customRts (rts : List RouteTable) : List RouteTable :=
  rts.filter (fun rt => !isMainRt rt)

/-- Destination of a route, preferring the IPv4 CIDR (lines 2128-2137). -/
def routeDest (r : RtRoute) : Option String :=
  match r.destCidr with
  | some d => some d
  | none => r.destIpv6Cidr

/-- Handling of one custom route table (lines 2101-2148): disassociate its
subnet associations (errors swallowed), remove its custom non-blackhole
routes (errors swallowed), then delete the table; the per-table `try`
records failure without stopping the loop. -/
def processRt (res : RtCall → Outcome) (rt : RouteTable) :
    List RtCall × Bool :=
  let dCalls :=
    (rt.associations.filter (fun a => a.subnetId.isSome)).filterMap
      (fun a => a.assocId.map RtCall.disassociate)
  let rCalls :=
    (rt.routes.filter
        (fun r => r.origin != "CreateRouteTable" && r.state != "blackhole")).filterMap
      (fun r => (routeDest r).map (RtCall.deleteRoute rt.routeTableId))
  let ok :=
    match res (RtCall.deleteTable rt.routeTableId) with
    | Outcome.ok => true
    | Outcome.err _ => false
  (dCalls ++ rCalls ++ [RtCall.deleteTable rt.routeTableId], ok)

/-- Loop of the route-table phase over the custom tables. -/
def rtGo (res : RtCall → Outcome) :
    List RouteTable → List RtCall × List String × List String
  | [] => ([], [], [])
  | rt :: rest =>
    let p := processRt res rt
    let r := rtGo res rest
    (p.1 ++ r.1,
     (if p.2 then [rt.routeTableId] else []) ++ r.2.1,
     (if p.2 then [] else [rt.routeTableId]) ++ r.2.2)

/-- Embedding of `delete_route_tables`: filter out main tables, then process
each custom table.  Returns the call trace, deleted ids, failed ids. -/
def delete_route_tables (rts : List RouteTable) (res : RtCall → Outcome) :
    List RtCall × List String × List String :=
  rtGo res (customRts rts)

/- ------------------------------------------------------------------
   VPC-endpoint retry loop of `_cleanup_subnet_dependencies`
   (delete_vpc.py lines 1171-1261) and the GWLB polling loop of
   `cleanup_gwlb_network_interfaces` (lines 1674-1717).
   ------------------------------------------------------------------ -/

/-- Result of the `describe_vpc_endpoints` probe at the top of a retry
attempt (lines 1180-1198): the endpoint state, a `ClientError` mentioning
`InvalidVpcEndpointId.NotFound`, or some other `ClientError`. -/
inductive DescribeRes where
  | state (s : String)
  | notFoundErr
  | otherErr
deriving DecidableEq, Repr

/-- Environment of the per-endpoint retry loop: probe result and delete
outcome per attempt, whether `_force_cleanup_vpc_endpoint` reports success,
the outcome of the final post-remediation delete, and whether the ultimate
network-interface fallback succeeds. -/
structure VpceEnv where
  descr : Nat → DescribeRes
  del : Nat → Outcome
  forceCleanup : Bool
  finalDel : Outcome
  ultimate : Bool

/-- Calls the endpoint-cleanup path issues for one endpoint. -/
inductive VpceEvent where
  | describeCall
  | deleteCall
  | forceCleanupCall
  | ultimateFallbackCall
deriving DecidableEq, Repr

/-- Number of `delete_vpc_endpoints` calls in a trace. -/
def countDeleteCalls : List VpceEvent → Nat
  | [] => 0
  | VpceEvent.deleteCall :: rest => countDeleteCalls rest + 1
  | _ :: rest => countDeleteCalls rest

/-- The deletion step of one retry attempt (lines 1200-1231): success and
not-found both mark the endpoint deleted; a dependency violation (code or
"cannot be deleted" in the lowercased message) falls through to the next
attempt; any other error stops the loop unsuccessfully. -/
def vpceDeleteStep (o : Outcome) (cont : List VpceEvent × Bool) :
    List VpceEvent × Bool :=
  match o with
  | Outcome.ok => ([VpceEvent.describeCall, VpceEvent.deleteCall], true)
  | Outcome.err e =>
    if e.code = "InvalidVpcEndpointId.NotFound" then
      ([VpceEvent.describeCall, VpceEvent.deleteCall], true)
    else if containsStr e.code "DependencyViolation"
        || containsStr e.msg.toLower "cannot be deleted" then
      (VpceEvent.describeCall :: VpceEvent.deleteCall :: cont.1, cont.2)
    else ([VpceEvent.describeCall, VpceEvent.deleteCall], false)

/-- The `for attempt in range(3)` retry loop (lines 1175-1231), with the
remaining attempt budget as fuel.  Each attempt probes the endpoint (a
deleted/deleting state or a not-found probe error counts as success) and
then runs the deletion step. -/
def vpceLoop (env : VpceEnv) : Nat → Nat → List VpceEvent × Bool
  | _, 0 => ([], false)
  | attempt, fuel + 1 =>
    match env.descr attempt with
    | DescribeRes.notFoundErr => ([VpceEvent.describeCall], true)
    | DescribeRes.state s =>
      if s = "deleted" || s = "deleting" then ([VpceEvent.describeCall], true)
      else vpceDeleteStep (env.del attempt) (vpceLoop env (attempt + 1) fuel)
    | DescribeRes.otherErr =>
      vpceDeleteStep (env.del attempt) (vpceLoop env (attempt + 1) fuel)

/-- Full per-endpoint cleanup (lines 1171-1261): the three-attempt retry
loop; when it fails, `_force_cleanup_vpc_endpoint` and, when that reports
success, one final deletion attempt; otherwise the ultimate
network-interface fallback. -/
def deleteVpceWithRetry (env : VpceEnv) : List VpceEvent × Bool :=
  let r := vpceLoop env 0 3
  if r.2 then r
  else if env.forceCleanup then
    match env.finalDel with
    | Outcome.ok =>
      (r.1 ++ [VpceEvent.forceCleanupCall, VpceEvent.deleteCall], true)
    | Outcome.err _ =>
      (r.1 ++ [VpceEvent.forceCleanupCall, VpceEvent.deleteCall], false)
  else
    (r.1 ++ [VpceEvent.forceCleanupCall, VpceEvent.ultimateFallbackCall],
      env.ultimate)

/-- The polling loop of `cleanup_gwlb_network_interfaces` (lines 1680-1714):
`clean n` says whether the nth probe finds no remaining GWLB interfaces.
Returns the number of `describe_network_interfaces` probes issued. -/
def gwlbLoop (clean : Nat → Bool) : Nat → Nat → Nat
  | _, 0 => 0
  | attempt, fuel + 1 =>
    1 + (if clean attempt then 0 else gwlbLoop clean (attempt + 1) fuel)

/-- Embedding of `cleanup_gwlb_network_interfaces`: at most
`max_attempts = 6` probes, counted from attempt 1. -/
def cleanup_gwlb_network_interfaces (clean : Nat → Bool) : Nat :=
  gwlbLoop clean 1 6

/- ------------------------------------------------------------------
   Network-interface phase: `VPCDeleter.delete_network_interfaces`
   (delete_vpc.py lines 1552-1672).
   ------------------------------------------------------------------ -/

/-- The attachment record of a network interface. -/
structure NIAttachment where
  instanceId : Option String
  attachmentId : String
  status : String
deriving DecidableEq, Repr

/-- A network interface as returned by `describe_network_interfaces`. -/
structure NetworkInterface where
  id : String
  status : String
  interfaceType : String
  description : String
  attachment : Option NIAttachment
deriving DecidableEq, Repr

/-- Whether the interface is attached to an EC2 instance (lines 1569-1572). -/
def niInstanceAttached (ni : NetworkInterface) : Bool :=
  match ni.attachment with
  | some a => a.instanceId.isSome
  | none => false

/-- The attachment id, defaulting to the empty string (line 1580). -/
def niAttachmentId (ni : NetworkInterface) : String :=
  match ni.attachment with
  | some a => a.attachmentId
  | none => ""

/-- Whether the description marks the interface as load-balancer managed
(line 1601). -/
def descIsLbManaged (d : String) : Bool :=
  ["elb", "elasticloadbalancing", "load balancer"].any
    (fun k => containsStr d.toLower k)

/-- The skip chain of `delete_network_interfaces` (lines 1568-1603), in
source order: instance attachments, service-managed interface types,
ELB/VPC-endpoint attachment ids, GWLB endpoint interfaces, in-use Lambda
interfaces, and load-balancer-flavoured descriptions. -/
def niSkipped (ni : NetworkInterface) : Bool :=
  niInstanceAttached ni
  || ["nat_gateway", "vpc_endpoint", "load_balancer",
      "gateway_load_balancer"].contains ni.interfaceType
  || (niAttachmentId ni).startsWith "ela-attach"
  || (niAttachmentId ni).startsWith "vpce-attach"
  || ni.interfaceType = "gateway_load_balancer_endpoint"
  || (containsStr ni.description.toLower "lambda" && ni.status == "in-use")
  || descIsLbManaged ni.description

/-- API calls of the network-interface phase. -/
inductive NICall where
  | detachCall (niId : String)
  | deleteCall (niId : String)
deriving DecidableEq, Repr

/-- The id a call refers to. -/
def niCallId : NICall → String
  | NICall.detachCall i => i
  | NICall.deleteCall i => i

/-- Detach decision for a non-skipped interface (lines 1610-1641): detach
only when an attachment with a non-empty id exists whose id has neither
managed form and which is not already detaching (detach errors are
swallowed). -/
def niDetachCalls (ni : NetworkInterface) : List NICall :=
  match ni.attachment with
  | none => []
  | some a =>
    if a.attachmentId = "" then []
    else if a.attachmentId.startsWith "ela-attach"
        || a.attachmentId.startsWith "vpce-attach"
        || a.status == "detaching" then []
    else [NICall.detachCall ni.id]

/-- Calls issued for one interface: nothing when skipped, otherwise the
detach decision followed by the deletion attempt (line 1643). -/
def processNi (ni : NetworkInterface) : List NICall :=
  if niSkipped ni then [] else niDetachCalls ni ++ [NICall.deleteCall ni.id]

/-- Loop of the network-interface phase: each interface is handled in its
own `try` (lines 1605-1664), so failures never stop the loop.  Returns the
call trace, deleted ids, failed ids. -/
def delete_network_interfaces (nis : List NetworkInterface)
    (res : NICall → Outcome) : List NICall × List String × List String :=
  match nis with
  | [] => ([], [], [])
  | ni :: rest =>
    let r := delete_network_interfaces rest res
    if niSkipped ni then r
    else
      match res (NICall.deleteCall ni.id) with
      | Outcome.ok => (processNi ni ++ r.1, ni.id :: r.2.1, r.2.2)
      | Outcome.err _ => (processNi ni ++ r.1, r.2.1, ni.id :: r.2.2)

/- ------------------------------------------------------------------
   Per-resource error isolation (C4) and not-found handling (C5).
   ------------------------------------------------------------------ -/

theorem deleteAttempt_mem_processSubnet (env : SubnetEnv) (s : String) :
    SubnetEvent.deleteAttempt s ∈ (processSubnet env s).1 := by
  unfold processSubnet
  cases env.del1 s with
  | ok => simp
  | err e =>
    by_cases h1 : e.code = "DependencyViolation"
    · by_cases h2 : env.cleanup s
      · cases env.del2 s <;> simp [h1, h2]
      · simp [h1, h2]
    · simp [h1]

theorem deleteAttempt_mem_delete_subnets (subnets : List String)
    (env : SubnetEnv) (s : String) (h : s ∈ subnets) :
    SubnetEvent.deleteAttempt s ∈ (delete_subnets subnets env).1 := by
  induction subnets with
  | nil => cases h
  | cons t rest ih =>
    simp only [delete_subnets]
    rcases List.mem_cons.mp h with h1 | h2
    · subst h1
      exact List.mem_append_left _ (deleteAttempt_mem_processSubnet env s)
    · exact List.mem_append_right _ (ih h2)

theorem deletePassSg_deleted (res : SgCall → Outcome)
    (l : List SecurityGroup) :
    (deletePassSg res l).2.1
      = (l.takeWhile
          (fun sg => res (SgCall.deleteGroup sg.groupId) == Outcome.ok)).map
          (fun sg => sg.groupId) := by
  induction l with
  | nil => rfl
  | cons sg rest ih =>
    cases h : res (SgCall.deleteGroup sg.groupId) with
    | ok => simp [deletePassSg, h, List.takeWhile_cons, ih]
    | err e => simp [deletePassSg, h, List.takeWhile_cons]

theorem sg_phase_abort_shape (sgs : List SecurityGroup)
    (res : SgCall → Outcome)
    (h : (revokePassSg res (customSgs sgs)).2 = true) :
    (delete_security_groups sgs res).2
      = ((customSgs sgs).takeWhile
          (fun sg => res (SgCall.deleteGroup sg.groupId) == Outcome.ok)).map
          (fun sg => sg.groupId) := by
  unfold delete_security_groups
  simp only [h, if_true]
  exact deletePassSg_deleted res (customSgs sgs)

theorem igw_phase_abort_shape (igws : List String)
    (res : IgwCall → Outcome) :
    (delete_internet_gateways igws res).2
      = igws.takeWhile
          (fun g => res (IgwCall.detach g) == Outcome.ok
            && res (IgwCall.delete g) == Outcome.ok) := by
  induction igws with
  | nil => rfl
  | cons g rest ih =>
    cases h1 : res (IgwCall.detach g) with
    | err e => simp [delete_internet_gateways, h1, List.takeWhile_cons]
    | ok =>
      cases h2 : res (IgwCall.delete g) with
      | err e =>
        simp [delete_internet_gateways, h1, h2, List.takeWhile_cons]
      | ok =>
        simp [delete_internet_gateways, h1, h2, List.takeWhile_cons, ih]

/-- Two rule-free security groups; deleting the first one fails with a
provider error. -/
def cexSgs : List SecurityGroup :=
  [{ groupId := "sg-1", groupName := "app1", ipPermissions := [],
     ipPermissionsEgress := [] },
   { groupId := "sg-2", groupName := "app2", ipPermissions := [],
     ipPermissionsEgress := [] }]

/-- Provider behaviour for the counterexample: `delete_security_group` on
`sg-1` raises, everything else succeeds. -/
def cexSgRes : SgCall → Outcome := fun c =>
  if c = SgCall.deleteGroup "sg-1" then
    Outcome.err ⟨"DependencyViolation", "resource sg-1 has a dependent object"⟩
  else Outcome.ok

/-- C4 counterexample: in the security-group phase an error on one group
does prevent the deletion attempt on the remaining group - the phase-level
`except` aborts the loop, so `sg-2` receives no delete call and nothing is
recorded as deleted. -/
theorem security_group_failure_aborts_phase_cex :
    cexSgRes (SgCall.deleteGroup "sg-1")
        = Outcome.err
            ⟨"DependencyViolation", "resource sg-1 has a dependent object"⟩
    ∧ SgCall.deleteGroup "sg-1" ∈ (delete_security_groups cexSgs cexSgRes).1
    ∧ SgCall.deleteGroup "sg-2" ∉ (delete_security_groups cexSgs cexSgRes).1
    ∧ (delete_security_groups cexSgs cexSgRes).2 = [] := by
  decide

/-- C4 amended: in the subnet phase every resource is attempted no matter
what happened to the others, but in the security-group and internet-gateway
phases - whose whole loop sits in a single `try` - only the longest prefix
of resources before the first provider error is processed. -/
theorem per_resource_error_isolation_amended :
    (∀ (subnets : List String) (env : SubnetEnv) (s : String),
        s ∈ subnets →
        SubnetEvent.deleteAttempt s ∈ (delete_subnets subnets env).1)
    ∧ (∀ (sgs : List SecurityGroup) (res : SgCall → Outcome),
        (revokePassSg res (customSgs sgs)).2 = true →
        (delete_security_groups sgs res).2
          = ((customSgs sgs).takeWhile
              (fun sg =>
                res (SgCall.deleteGroup sg.groupId) == Outcome.ok)).map
              (fun sg => sg.groupId))
    ∧ (∀ (igws : List String) (res : IgwCall → Outcome),
        (delete_internet_gateways igws res).2
          = igws.takeWhile
              (fun g => res (IgwCall.detach g) == Outcome.ok
                && res (IgwCall.delete g) == Outcome.ok)) :=
  ⟨deleteAttempt_mem_delete_subnets, sg_phase_abort_shape,
    igw_phase_abort_shape⟩

/-- Subnet environment in which the first subnet fails with an unclassified
error and the others succeed. -/
def cexSubnetEnvB : SubnetEnv :=
  { del1 := fun s =>
      if s = "subnet-a" then Outcome.err ⟨"InternalError", "boom"⟩
      else Outcome.ok
    cleanup := fun _ => false
    del2 := fun _ => Outcome.ok }

/-- Witness for the amended C4 at concrete inputs: the second subnet is
still attempted after the first failed, while the aborted security-group
phase deletes only the (empty) prefix before the failure. -/
theorem per_resource_error_isolation_amended_witness :
    SubnetEvent.deleteAttempt "subnet-b"
        ∈ (delete_subnets ["subnet-a", "subnet-b"] cexSubnetEnvB).1
    ∧ (delete_security_groups cexSgs cexSgRes).2
        = ((customSgs cexSgs).takeWhile
            (fun sg =>
              cexSgRes (SgCall.deleteGroup sg.groupId) == Outcome.ok)).map
            (fun sg => sg.groupId)
    ∧ (delete_internet_gateways ["igw-1"] (fun _ => Outcome.ok)).2
        = ["igw-1"].takeWhile
            (fun g => (fun _ => Outcome.ok) (IgwCall.detach g) == Outcome.ok
              && (fun _ => Outcome.ok) (IgwCall.delete g) == Outcome.ok) :=
  ⟨per_resource_error_isolation_amended.1 ["subnet-a", "subnet-b"]
      cexSubnetEnvB "subnet-b" (by decide),
   per_resource_error_isolation_amended.2.1 cexSgs cexSgRes (by decide),
   per_resource_error_isolation_amended.2.2 ["igw-1"] (fun _ => Outcome.ok)⟩

/-- Subnet environment in which `delete_subnet` reports the subnet as
already gone (a not-found error). -/
def cexSubnetEnv : SubnetEnv :=
  { del1 := fun _ =>
      Outcome.err
        ⟨"InvalidSubnetID.NotFound", "The subnet ID subnet-a does not exist"⟩
    cleanup := fun _ => false
    del2 := fun _ => Outcome.ok }

/-- C5 counterexample: in the subnet phase a not-found error on
`delete_subnet` falls into the generic error branch and the subnet is
recorded as a failure, not treated as success-equivalent. -/
theorem subnet_notfound_recorded_as_failure_cex :
    cexSubnetEnv.del1 "subnet-a"
        = Outcome.err
            ⟨"InvalidSubnetID.NotFound",
              "The subnet ID subnet-a does not exist"⟩
    ∧ (delete_subnets ["subnet-a"] cexSubnetEnv).2.2 = ["subnet-a"]
    ∧ (delete_subnets ["subnet-a"] cexSubnetEnv).2.1 = [] := by
  decide

theorem processSubnet_notfound_failed (env : SubnetEnv) (s m : String)
    (hdel : env.del1 s = Outcome.err ⟨"InvalidSubnetID.NotFound", m⟩) :
    (processSubnet env s).2 = false := by
  simp [processSubnet, hdel]

theorem mem_failed_delete_subnets (subnets : List String) (env : SubnetEnv)
    (s : String) (hs : s ∈ subnets)
    (hp : (processSubnet env s).2 = false) :
    s ∈ (delete_subnets subnets env).2.2 := by
  induction subnets with
  | nil => cases hs
  | cons t rest ih =>
    simp only [delete_subnets]
    rcases List.mem_cons.mp hs with h1 | h2
    · subst h1
      simp [hp]
    · exact List.mem_append_right _ (ih h2)

/-- C5 amended: the VPC-endpoint cleanup path does treat a not-found error
on the endpoint deletion as success-equivalent, but the subnet phase
records a not-found error on `delete_subnet` as a failure like any other
non-DependencyViolation error. -/
theorem notfound_handling_amended :
    (∀ (env : VpceEnv) (attempt fuel : Nat) (m : String),
        env.descr attempt = DescribeRes.otherErr →
        env.del attempt
          = Outcome.err ⟨"InvalidVpcEndpointId.NotFound", m⟩ →
        (vpceLoop env attempt (fuel + 1)).2 = true)
    ∧ (∀ (subnets : List String) (env : SubnetEnv) (s m : String),
        s ∈ subnets →
        env.del1 s = Outcome.err ⟨"InvalidSubnetID.NotFound", m⟩ →
        s ∈ (delete_subnets subnets env).2.2) := by
  constructor
  · intro env attempt fuel m hd hdel
    simp [vpceLoop, hd, hdel, vpceDeleteStep]
  · intro subnets env s m hs hdel
    exact mem_failed_delete_subnets subnets env s hs
      (processSubnet_notfound_failed env s m hdel)

/-- Endpoint environment whose deletion always reports not-found. -/
def cexVpceEnv : VpceEnv :=
  { descr := fun _ => DescribeRes.otherErr
    del := fun _ =>
      Outcome.err ⟨"InvalidVpcEndpointId.NotFound", "endpoint is gone"⟩
    forceCleanup := false
    finalDel := Outcome.ok
    ultimate := false }

/-- Witness for the amended C5 at concrete inputs. -/
theorem notfound_handling_amended_witness :
    (vpceLoop cexVpceEnv 0 3).2 = true
    ∧ "subnet-a" ∈ (delete_subnets ["subnet-a"] cexSubnetEnv).2.2 :=
  ⟨notfound_handling_amended.1 cexVpceEnv 0 2 "endpoint is gone" rfl rfl,
   notfound_handling_amended.2 ["subnet-a"] cexSubnetEnv "subnet-a"
     "The subnet ID subnet-a does not exist" (by decide) rfl⟩

/- ------------------------------------------------------------------
   Retry bounds (C6).
   ------------------------------------------------------------------ -/

theorem countDeleteCalls_append (xs ys : List VpceEvent) :
    countDeleteCalls (xs ++ ys)
      = countDeleteCalls xs + countDeleteCalls ys := by
  induction xs with
  | nil => simp [countDeleteCalls]
  | cons x rest ih =>
    cases x with
    | describeCall => simp [countDeleteCalls, ih]
    | deleteCall =>
      simp [countDeleteCalls, ih]
      omega
    | forceCleanupCall => simp [countDeleteCalls, ih]
    | ultimateFallbackCall => simp [countDeleteCalls, ih]

theorem countDeleteCalls_vpceDeleteStep (o : Outcome)
    (cont : List VpceEvent × Bool) :
    countDeleteCalls (vpceDeleteStep o cont).1
      ≤ countDeleteCalls cont.1 + 1 := by
  unfold vpceDeleteStep
  cases o with
  | ok => simp [countDeleteCalls]
  | err e =>
    by_cases h1 : e.code = "InvalidVpcEndpointId.NotFound"
    · simp [h1, countDeleteCalls]
    · by_cases h2 : (containsStr e.code "DependencyViolation"
          || containsStr e.msg.toLower "cannot be deleted") = true
      · simp [h1, h2, countDeleteCalls]
      · simp [h1, h2, countDeleteCalls]

theorem countDeleteCalls_vpceLoop (env : VpceEnv) (attempt fuel : Nat) :
    countDeleteCalls (vpceLoop env attempt fuel).1 ≤ fuel := by
  induction fuel generalizing attempt with
  | zero => simp [vpceLoop, countDeleteCalls]
  | succ f ih =>
    unfold vpceLoop
    cases env.descr attempt with
    | notFoundErr => simp [countDeleteCalls]
    | state s =>
      by_cases h : (s = "deleted" || s = "deleting") = true
      · simp [h, countDeleteCalls]
      · simp only [h, if_false, Bool.false_eq_true]
        exact le_trans (countDeleteCalls_vpceDeleteStep _ _)
          (Nat.add_le_add_right (ih (attempt + 1)) 1)
    | otherErr =>
      exact le_trans (countDeleteCalls_vpceDeleteStep _ _)
        (Nat.add_le_add_right (ih (attempt + 1)) 1)

theorem gwlbLoop_le (clean : Nat → Bool) (attempt fuel : Nat) :
    gwlbLoop clean attempt fuel ≤ fuel := by
  induction fuel generalizing attempt with
  | zero => simp [gwlbLoop]
  | succ f ih =>
    unfold gwlbLoop
    by_cases h : clean attempt = true
    · simp [h]
    · simp only [h, if_false, Bool.false_eq_true]
      have := ih (attempt + 1)
      omega

/-- C6: both retry loops are bounded.  The endpoint retry loop of
`_cleanup_subnet_dependencies` issues at most its configured maximum of 3
deletion attempts per endpoint; the whole per-endpoint path, including the
single post-remediation attempt after `_force_cleanup_vpc_endpoint`, issues
at most 4; the GWLB polling loop issues at most its configured
`max_attempts = 6` probes.  No loop runs indefinitely. -/
theorem retry_and_poll_loops_bounded :
    (∀ (env : VpceEnv), countDeleteCalls (vpceLoop env 0 3).1 ≤ 3)
    ∧ (∀ (env : VpceEnv),
        countDeleteCalls (deleteVpceWithRetry env).1 ≤ 4)
    ∧ (∀ (clean : Nat → Bool),
        cleanup_gwlb_network_interfaces clean ≤ 6) := by
  refine ⟨fun env => countDeleteCalls_vpceLoop env 0 3, ?_,
    fun clean => gwlbLoop_le clean 1 6⟩
  intro env
  have hb := countDeleteCalls_vpceLoop env 0 3
  unfold deleteVpceWithRetry
  by_cases h : (vpceLoop env 0 3).2 = true
  · simp only [h, if_true]
    omega
  · by_cases hf : env.forceCleanup = true
    · cases hfd : env.finalDel with
      | ok =>
        simp only [h, hf, hfd, Bool.false_eq_true, if_false, if_true]
        rw [countDeleteCalls_append]
        simp [countDeleteCalls]
        omega
      | err e =>
        simp only [h, hf, hfd, Bool.false_eq_true, if_false, if_true]
        rw [countDeleteCalls_append]
        simp [countDeleteCalls]
        omega
    · simp only [h, hf, Bool.false_eq_true, if_false]
      rw [countDeleteCalls_append]
      simp [countDeleteCalls]
      omega

/- ------------------------------------------------------------------
   Main-route-table protection and revoke-before-delete ordering (C7).
   ------------------------------------------------------------------ -/

theorem deleteTable_mem_processRt (res : RtCall → Outcome)
    (rt : RouteTable) (rtId : String)
    (h : RtCall.deleteTable rtId ∈ (processRt res rt).1) :
    rtId = rt.routeTableId := by
  unfold processRt at h
  simp only [List.append_assoc, List.mem_append] at h
  rcases h with h | h | h
  · rcases List.mem_filterMap.mp h with ⟨a, _, ha⟩
    cases hid : a.assocId with
    | none => rw [hid] at ha; cases ha
    | some i => rw [hid] at ha; cases ha
  · rcases List.mem_filterMap.mp h with ⟨r, _, hr⟩
    cases hd : routeDest r with
    | none => rw [hd] at hr; cases hr
    | some d => rw [hd] at hr; cases hr
  · rcases List.mem_singleton.mp h with he
    cases he
    rfl

theorem deleteTable_mem_rtGo (res : RtCall → Outcome)
    (l : List RouteTable) (rtId : String)
    (h : RtCall.deleteTable rtId ∈ (rtGo res l).1) :
    ∃ rt, rt ∈ l ∧ rt.routeTableId = rtId := by
  induction l with
  | nil => simp [rtGo] at h
  | cons rt rest ih =>
    simp only [rtGo, List.mem_append] at h
    rcases h with h | h
    · exact ⟨rt, List.mem_cons_self rt rest,
        (deleteTable_mem_processRt res rt rtId h).symm⟩
    · rcases ih h with ⟨rt2, hm, he⟩
      exact ⟨rt2, List.mem_cons_of_mem rt hm, he⟩

theorem isRevoke_revokeSg (res : SgCall → Outcome) (sg : SecurityGroup) :
    ∀ c ∈ (revokeSg res sg).1, isRevoke c = true := by
  intro c hc
  unfold revokeSg at hc
  by_cases h1 : sg.ipPermissions.isEmpty
  · by_cases h2 : sg.ipPermissionsEgress.isEmpty
    · simp [h1, h2] at hc
    · simp only [h1, h2, if_true, if_false, Bool.false_eq_true] at hc
      cases hres : res (SgCall.revokeEgress sg.groupId) <;>
        rw [hres] at hc <;>
        rcases List.mem_singleton.mp hc with rfl <;> rfl
  · simp only [h1, if_false, Bool.false_eq_true] at hc
    cases hres : res (SgCall.revokeIngress sg.groupId) with
    | err e =>
      rw [hres] at hc
      rcases List.mem_singleton.mp hc with rfl
      rfl
    | ok =>
      rw [hres] at hc
      by_cases h2 : sg.ipPermissionsEgress.isEmpty
      · simp only [h2, if_true] at hc
        rcases List.mem_singleton.mp hc with rfl
        rfl
      · simp only [h2, if_false, Bool.false_eq_true] at hc
        cases hres2 : res (SgCall.revokeEgress sg.groupId) <;>
          rw [hres2] at hc <;>
          rcases List.mem_cons.mp hc with rfl | hc2 <;>
          first
            | rfl
            | (rcases List.mem_singleton.mp hc2 with rfl; rfl)

theorem isRevoke_revokePassSg (res : SgCall → Outcome)
    (l : List SecurityGroup) :
    ∀ c ∈ (revokePassSg res l).1, isRevoke c = true := by
  intro c hc
  induction l with
  | nil => simp [revokePassSg] at hc
  | cons sg rest ih =>
    unfold revokePassSg at hc
    by_cases hr : (revokeSg res sg).2 = true
    · simp only [hr, if_true, List.mem_append] at hc
      rcases hc with hc | hc
      · exact isRevoke_revokeSg res sg c hc
      · exact ih hc
    · simp only [hr, Bool.false_eq_true, if_false] at hc
      exact isRevoke_revokeSg res sg c hc

theorem isDelete_deletePassSg (res : SgCall → Outcome)
    (l : List SecurityGroup) :
    ∀ c ∈ (deletePassSg res l).1, isDelete c = true := by
  intro c hc
  induction l with
  | nil => simp [deletePassSg] at hc
  | cons sg rest ih =>
    unfold deletePassSg at hc
    cases hres : res (SgCall.deleteGroup sg.groupId) with
    | ok =>
      rw [hres] at hc
      rcases List.mem_cons.mp hc with rfl | hc2
      · rfl
      · exact ih hc2
    | err e =>
      rw [hres] at hc
      rcases List.mem_singleton.mp hc with rfl
      rfl

theorem revokeSg_complete (res : SgCall → Outcome) (sg : SecurityGroup)
    (h : (revokeSg res sg).2 = true) :
    (sg.ipPermissions ≠ [] →
      SgCall.revokeIngress sg.groupId ∈ (revokeSg res sg).1)
    ∧ (sg.ipPermissionsEgress ≠ [] →
      SgCall.revokeEgress sg.groupId ∈ (revokeSg res sg).1) := by
  unfold revokeSg at h ⊢
  by_cases h1 : sg.ipPermissions.isEmpty
  · have h1e : sg.ipPermissions = [] := by
      simpa [List.isEmpty_iff] using h1
    by_cases h2 : sg.ipPermissionsEgress.isEmpty
    · have h2e : sg.ipPermissionsEgress = [] := by
        simpa [List.isEmpty_iff] using h2
      simp [h1, h2, h1e, h2e]
    · refine ⟨fun hcon => absurd h1e hcon, fun _ => ?_⟩
      simp only [h1, h2, if_true, if_false, Bool.false_eq_true]
      cases res (SgCall.revokeEgress sg.groupId) <;> simp
  · simp only [h1, if_false, Bool.false_eq_true] at h ⊢
    cases hres : res (SgCall.revokeIngress sg.groupId) with
    | err e =>
      rw [hres] at h
      simp at h
    | ok =>
      rw [hres] at h
      by_cases h2 : sg.ipPermissionsEgress.isEmpty
      · have h2e : sg.ipPermissionsEgress = [] := by
          simpa [List.isEmpty_iff] using h2
        simp [h2, h2e]
      · simp only [h2, if_false, Bool.false_eq_true] at h ⊢
        cases res (SgCall.revokeEgress sg.groupId) <;> simp

theorem revokePassSg_complete (res : SgCall → Outcome)
    (l : List SecurityGroup)
    (h : (revokePassSg res l).2 = true) :
    ∀ sg ∈ l,
      (sg.ipPermissions ≠ [] →
        SgCall.revokeIngress sg.groupId ∈ (revokePassSg res l).1)
      ∧ (sg.ipPermissionsEgress ≠ [] →
        SgCall.revokeEgress sg.groupId ∈ (revokePassSg res l).1) := by
  induction l with
  | nil => intro sg hsg; cases hsg
  | cons t rest ih =>
    intro sg hsg
    by_cases hr : (revokeSg res t).2 = true
    · have htr : (revokePassSg res (t :: rest)).1
          = (revokeSg res t).1 ++ (revokePassSg res rest).1 := by
        simp [revokePassSg, hr]
      have hres2 : (revokePassSg res (t :: rest)).2
          = (revokePassSg res rest).2 := by
        simp [revokePassSg, hr]
      rw [hres2] at h
      rcases List.mem_cons.mp hsg with rfl | hmem
      · rcases revokeSg_complete res sg hr with ⟨hi, he⟩
        refine ⟨fun hne => ?_, fun hne => ?_⟩
        · rw [htr]
          exact List.mem_append_left _ (hi hne)
        · rw [htr]
          exact List.mem_append_left _ (he hne)
      · rcases ih h sg hmem with ⟨hi, he⟩
        refine ⟨fun hne => ?_, fun hne => ?_⟩
        · rw [htr]
          exact List.mem_append_right _ (hi hne)
        · rw [htr]
          exact List.mem_append_right _ (he hne)
    · exfalso
      have : (revokePassSg res (t :: rest)).2 = false := by
        simp [revokePassSg, hr]
      rw [this] at h
      cases h

/-- C7: the route-table phase only ever issues `delete_route_table` for a
table without a `Main` association (the main table is untouched), and the
security-group phase's trace is a block of revoke calls followed by a block
of delete calls, where any delete being issued implies that every
non-default group with rules had its ingress and egress rules revoked
first. -/
theorem main_table_protected_and_revoke_before_delete :
    (∀ (rts : List RouteTable) (res : RtCall → Outcome) (rtId : String),
        RtCall.deleteTable rtId ∈ (delete_route_tables rts res).1 →
        ∃ rt, rt ∈ rts ∧ rt.routeTableId = rtId ∧ isMainRt rt = false)
    ∧ (∀ (sgs : List SecurityGroup) (res : SgCall → Outcome),
        ∃ t1 t2, (delete_security_groups sgs res).1 = t1 ++ t2
          ∧ (∀ c ∈ t1, isRevoke c = true)
          ∧ (∀ c ∈ t2, isDelete c = true)
          ∧ (t2 ≠ [] → ∀ sg ∈ customSgs sgs,
              (sg.ipPermissions ≠ [] →
                SgCall.revokeIngress sg.groupId ∈ t1)
              ∧ (sg.ipPermissionsEgress ≠ [] →
                SgCall.revokeEgress sg.groupId ∈ t1))) := by
  constructor
  · intro rts res rtId h
    rcases deleteTable_mem_rtGo res (customRts rts) rtId h with ⟨rt, hm, he⟩
    rcases List.mem_filter.mp hm with ⟨hmem, hpred⟩
    refine ⟨rt, hmem, he, ?_⟩
    simpa using hpred
  · intro sgs res
    by_cases hr : (revokePassSg res (customSgs sgs)).2 = true
    · refine ⟨(revokePassSg res (customSgs sgs)).1,
        (deletePassSg res (customSgs sgs)).1, ?_, ?_, ?_, ?_⟩
      · simp [delete_security_groups, hr]
      · exact isRevoke_revokePassSg res (customSgs sgs)
      · exact isDelete_deletePassSg res (customSgs sgs)
      · intro _ sg hsg
        exact revokePassSg_complete res (customSgs sgs) hr sg hsg
    · refine ⟨(revokePassSg res (customSgs sgs)).1, [], ?_, ?_, ?_, ?_⟩
      · simp [delete_security_groups, hr]
      · exact isRevoke_revokePassSg res (customSgs sgs)
      · intro c hc
        cases hc
      · intro hcon
        exact absurd rfl hcon

/-- Route tables for the C7 witness: the main table and one custom table. -/
def rtsW : List RouteTable :=
  [{ routeTableId := "rtb-main"
     associations := [{ main := true, subnetId := none, assocId := none }]
     routes := [] },
   { routeTableId := "rtb-c", associations := [], routes := [] }]

/-- Security group for the C7 witness: one custom group with rules. -/
def sgsW : List SecurityGroup :=
  [{ groupId := "sg-a", groupName := "web", ipPermissions := ["r1"],
     ipPermissionsEgress := ["r2"] }]

/-- Witness for C7 at concrete inputs. -/
theorem main_table_protected_and_revoke_before_delete_witness :
    (∃ rt, rt ∈ rtsW ∧ rt.routeTableId = "rtb-c" ∧ isMainRt rt = false)
    ∧ (∃ t1 t2,
        (delete_security_groups sgsW (fun _ => Outcome.ok)).1 = t1 ++ t2
        ∧ (∀ c ∈ t1, isRevoke c = true)
        ∧ (∀ c ∈ t2, isDelete c = true)
        ∧ (t2 ≠ [] → ∀ sg ∈ customSgs sgsW,
            (sg.ipPermissions ≠ [] →
              SgCall.revokeIngress sg.groupId ∈ t1)
            ∧ (sg.ipPermissionsEgress ≠ [] →
              SgCall.revokeEgress sg.groupId ∈ t1))) :=
  ⟨main_table_protected_and_revoke_before_delete.1 rtsW
      (fun _ => Outcome.ok) "rtb-c" (by decide),
   main_table_protected_and_revoke_before_delete.2 sgsW
      (fun _ => Outcome.ok)⟩

/- ------------------------------------------------------------------
   Managed network interfaces are skipped (C10).
   ------------------------------------------------------------------ -/

theorem processNi_skipped (ni : NetworkInterface)
    (h : niSkipped ni = true) : processNi ni = [] := by
  simp [processNi, h]

theorem niCallId_processNi (ni : NetworkInterface) (c : NICall)
    (h : c ∈ processNi ni) : niCallId c = ni.id := by
  unfold processNi at h
  by_cases hs : niSkipped ni = true
  · simp [hs] at h
  · simp only [hs, Bool.false_eq_true, if_false, List.mem_append] at h
    rcases h with h | h
    · unfold niDetachCalls at h
      cases hat : ni.attachment with
      | none => rw [hat] at h; cases h
      | some a =>
        rw [hat] at h
        by_cases he : a.attachmentId = ""
        · simp [he] at h
        · by_cases hm : (a.attachmentId.startsWith "ela-attach"
              || a.attachmentId.startsWith "vpce-attach"
              || a.status == "detaching") = true
          · simp [he, hm] at h
          · simp only [he, hm, if_false, Bool.false_eq_true] at h
            rcases List.mem_singleton.mp h with rfl
            rfl
    · rcases List.mem_singleton.mp h with rfl
      rfl

theorem mem_trace_delete_network_interfaces (nis : List NetworkInterface)
    (res : NICall → Outcome) (c : NICall)
    (h : c ∈ (delete_network_interfaces nis res).1) :
    ∃ ni, ni ∈ nis ∧ c ∈ processNi ni := by
  induction nis with
  | nil => simp [delete_network_interfaces] at h
  | cons ni rest ih =>
    by_cases hs : niSkipped ni = true
    · have hre : (delete_network_interfaces (ni :: rest) res)
          = delete_network_interfaces rest res := by
        simp [delete_network_interfaces, hs]
      rw [hre] at h
      rcases ih h with ⟨ni2, hm, hc⟩
      exact ⟨ni2, List.mem_cons_of_mem _ hm, hc⟩
    · have htr : (delete_network_interfaces (ni :: rest) res).1
          = processNi ni ++ (delete_network_interfaces rest res).1 := by
        simp only [delete_network_interfaces, hs, Bool.false_eq_true,
          if_false]
        cases res (NICall.deleteCall ni.id) <;> rfl
      rw [htr] at h
      rcases List.mem_append.mp h with h | h
      · exact ⟨ni, List.mem_cons_self ni rest, h⟩
      · rcases ih h with ⟨ni2, hm, hc⟩
        exact ⟨ni2, List.mem_cons_of_mem _ hm, hc⟩

/-- C10: an interface that is attached to an EC2 instance, has a
service-managed interface type, carries an `ela-attach`/`vpce-attach`
attachment id, or whose description marks it as load-balancer managed,
never receives a delete or detach call in the network-interface phase. -/
theorem managed_network_interfaces_never_touched
    (nis : List NetworkInterface) (res : NICall → Outcome)
    (ni : NetworkInterface) (hmem : ni ∈ nis)
    (hnodup : (nis.map (fun x => x.id)).Nodup)
    (hcat : niInstanceAttached ni = true
      ∨ ni.interfaceType ∈ ["nat_gateway", "vpc_endpoint", "load_balancer",
          "gateway_load_balancer", "gateway_load_balancer_endpoint"]
      ∨ (niAttachmentId ni).startsWith "ela-attach" = true
      ∨ (niAttachmentId ni).startsWith "vpce-attach" = true
      ∨ descIsLbManaged ni.description = true) :
    NICall.deleteCall ni.id ∉ (delete_network_interfaces nis res).1
    ∧ NICall.detachCall ni.id ∉ (delete_network_interfaces nis res).1 := by
  have hskip : niSkipped ni = true := by
    unfold niSkipped
    rcases hcat with h | h | h | h | h
    · simp [h]
    · simp only [List.mem_cons, List.not_mem_nil, or_false] at h
      rcases h with h | h | h | h | h
      all_goals simp [h, List.contains]
    · simp [h]
    · simp [h]
    · simp [h]
  have key : ∀ c : NICall, niCallId c = ni.id →
      c ∉ (delete_network_interfaces nis res).1 := by
    intro c hid hin
    rcases mem_trace_delete_network_interfaces nis res c hin with
      ⟨ni2, hm2, hc2⟩
    have hid2 : ni2.id = ni.id :=
      (niCallId_processNi ni2 c hc2).symm.trans hid
    have heq : ni2 = ni :=
      List.inj_on_of_nodup_map hnodup hm2 hmem hid2
    rw [heq, processNi_skipped ni hskip] at hc2
    cases hc2
  exact ⟨key (NICall.deleteCall ni.id) rfl, key (NICall.detachCall ni.id) rfl⟩

/-- Interfaces for the C10 witness: a NAT-gateway-managed interface and an
ordinary orphaned interface. -/
def nisW : List NetworkInterface :=
  [{ id := "eni-1", status := "in-use", interfaceType := "nat_gateway",
     description := "Interface for NAT Gateway", attachment := none },
   { id := "eni-2", status := "available", interfaceType := "interface",
     description := "", attachment := none }]

/-- Witness for C10: the NAT-gateway interface gets neither a delete nor a
detach call. -/
theorem managed_network_interfaces_never_touched_witness :
    NICall.deleteCall "eni-1"
        ∉ (delete_network_interfaces nisW (fun _ => Outcome.ok)).1
    ∧ NICall.detachCall "eni-1"
        ∉ (delete_network_interfaces nisW (fun _ => Outcome.ok)).1 :=
  managed_network_interfaces_never_touched nisW (fun _ => Outcome.ok)
    { id := "eni-1", status := "in-use", interfaceType := "nat_gateway",
      description := "Interface for NAT Gateway", attachment := none }
    (by decide) (by decide) (Or.inr (Or.inl (by decide)))
